import Mathlib

/-!
Verification of the Ariala Taberna reservation backend core
(`app/routers/public_api.py`, `app/schemas.py`, `app/models.py`).

Times of day cross the API as `HH:MM` strings and are compared by the source
as Python strings (lexicographically); the model keeps them as `String` in the
data layer and converts to minutes-since-midnight (`Nat`) exactly where the
source calls `strptime`/`strftime`.
-/

namespace Ariala

/-- Two-digit zero-padded decimal rendering, as `strftime` produces for
`%H` and `%M`. -/
def pad2 (n : Nat) : String :=
if n < 10 then "0" ++ toString n else toString n

/-- `strftime("%H:%M")` of a time given in minutes since midnight (the hour
is reduced modulo 24, as `datetime` wraps across days). -/
def minutesToHHMM (t : Nat) : String :=
pad2 ((t / 60) % 24) ++ ":" ++ pad2 (t % 60)

/-- Digit value of an ASCII digit character. -/
def digitVal (c : Char) : Nat := c.toNat - 48

/-- `strptime(s, "%H:%M")` for the zero-padded `HH:MM` form the schedule
store documents (`models.ServiceWindow.start/end`): two digits, a colon,
two digits, hour below 24, minute below 60; result in minutes since
midnight.  Any other input makes `strptime` raise, modelled by `none`. -/
def hhmmToMinutes (s : String) : Option Nat :=
match s.data with
| [h1, h2, ':', m1, m2] =>
  if h1.isDigit && h2.isDigit && m1.isDigit && m2.isDigit then
    let h := digitVal h1 * 10 + digitVal h2
    let m := digitVal m1 * 10 + digitVal m2
    if h < 24 && m < 60 then some (h * 60 + m) else none
  else none
| _ => none

/-- The body of `_generate_slots`'s per-window `while` loop, written with
explicit fuel so that it is structurally recursive: emit the current time
and advance by `step` minutes while the current time is strictly below
`stop`. -/
def slotsLoop : Nat → Nat → Nat → Nat → List Nat
| 0, _, _, _ => []
| fuel + 1, current, stop, step =>
  if current < stop then current :: slotsLoop fuel (current + step) stop step
  else []

/-- The per-window loop of `_generate_slots`: starting at `start`, emit the
current time-of-day and advance by `step` minutes while the current time
remains strictly below `stop` (the window's exclusive end).  Times are
minutes since midnight.  `stop - start` iterations of fuel suffice for any
positive step; the source's loop diverges for `step = 0`, which the model
excludes by returning `[]` there (every caller passes the fixed default
30). -/
def slotsFromWindow (start stop step : Nat) : List Nat :=
if step = 0 then [] else slotsLoop (stop - start) start stop step

/-- Python string comparison `a < b` on the underlying character lists:
lexicographic by Unicode code point, a proper prefix is smaller. -/
def chListLt : List Char → List Char → Bool
| [], [] => false
| [], _ :: _ => true
| _ :: _, [] => false
| a :: as, b :: bs => if a < b then true else if b < a then false else chListLt as bs

/-- Python `a < b` on strings. -/
def pyStrLt (a b : String) : Bool := chListLt a.data b.data

/-- Python `a <= b` on strings. -/
def pyStrLe (a b : String) : Bool := pyStrLt a b || decide (a = b)

/-- One step of building `sorted(set(slots))`: insert a string into an
ascending duplicate-free list, keeping it ascending and duplicate-free. -/
def insertDedup (x : String) : List String → List String
| [] => [x]
| y :: ys =>
  if x = y then y :: ys
  else if pyStrLt x y then x :: y :: ys
  else y :: insertDedup x ys

/-- Python `sorted(set(l))` for a list of strings: the distinct elements in
ascending lexicographic order. -/
def pySortedDedup (l : List String) : List String := l.foldr insertDedup []

/-- `models.ReservationStatus`. -/
inductive ReservationStatus
| PENDING
| CONFIRMED
| CANCELLED
| REJECTED
deriving DecidableEq

/-- `models.ServiceWindow`: `start`/`end` are `HH:MM` wall-clock strings
(the `day_id`/`id` bookkeeping columns are represented by membership in the
owning day's `windows` list). -/
structure ServiceWindow where
  start : String
  «end» : String
deriving DecidableEq

/-- `models.ScheduleDay`: one entry per calendar date, owning its service
windows. -/
structure ScheduleDay where
  date : String
  «open» : Bool
  note : Option String
  windows : List ServiceWindow
deriving DecidableEq

/-- `models.Reservation` (the `created_at`/`updated_at` timestamp columns,
which no claim touches, are not modelled). -/
structure Reservation where
  id : Nat
  date : String
  time : String
  party_size : Int
  customer_name : String
  customer_phone : Option String
  customer_email : Option String
  notes : Option String
  status : ReservationStatus
deriving DecidableEq

/-- `models.Event`, restricted to the columns the identifier-decoding
claims consult (`id`, `is_published`) plus `title`. -/
structure Event where
  id : Nat
  title : String
  is_published : Bool
deriving DecidableEq

/-- The relational store: schedule days (dates unique per `models.py`),
reservations with an autoincrement id counter, and events. -/
structure DB where
  days : List ScheduleDay
  reservations : List Reservation
  events : List Event
  nextId : Nat
deriving DecidableEq

/-- `select(ScheduleDay).where(ScheduleDay.date == date)` followed by
`scalar_one_or_none()` — the date column is unique, so first match. -/
def findDay (db : DB) (date : String) : Option ScheduleDay :=
db.days.find? (fun d => decide (d.date = date))

/-- `Reservation.status.in_([ReservationStatus.PENDING, ReservationStatus.CONFIRMED])`. -/
def isActive (st : ReservationStatus) : Bool :=
decide (st = .PENDING) || decide (st = .CONFIRMED)

/-- The count of PENDING/CONFIRMED reservations at an exact `(date, time)`
pair — the grouped count that both `get_availability` and
`create_reservation` issue. -/
def activeCount (db : DB) (date time : String) : Nat :=
(db.reservations.filter
  (fun r => decide (r.date = date) && decide (r.time = time) && isActive r.status)).length

/-- `any(w.start <= payload.time < w.end for w in day.windows)` — Python
chained string comparison, half-open containment. -/
def within_window (windows : List ServiceWindow) (time : String) : Bool :=
windows.any (fun w => pyStrLe w.start time && pyStrLt time w.«end»)

/-- The failure modes of the public API paths under verification, with
`statusCode` carrying the HTTP code each is raised with.
`internalError` stands for an exception that propagates out of the
handler uncaught (FastAPI turns it into a 500 response). -/
inductive ApiError
| validationError
| dateUnavailable
| timeOutsideServiceHours
| slotFull
| notFound
| cannotBeCancelled
| internalError
deriving DecidableEq

/-- HTTP status code of each failure mode, as raised by the source
(`HTTPException(status_code=...)`; 422 is FastAPI's code for a request
body rejected by the pydantic schema; 500 is an uncaught exception). -/
def statusCode : ApiError → Nat
| .validationError => 422
| .dateUnavailable => 400
| .timeOutsideServiceHours => 400
| .slotFull => 409
| .notFound => 404
| .cannotBeCancelled => 409
| .internalError => 500

/-- `schemas.ReservationCustomer`. -/
structure ReservationCustomer where
  name : String
  phone : Option String
  email : Option String
deriving DecidableEq

/-- `schemas.ReservationCreate`, the body of `POST /reservations` (field
constraints live in `reservationCreateValid`). -/
structure ReservationCreate where
  date : String
  time : String
  partySize : Int
  customer : ReservationCustomer
  notes : Option String
deriving DecidableEq

/-- `utils.reservation_public_id`. -/
def reservation_public_id (db_id : Nat) : String := "resv_" ++ toString db_id

/-- `utils.event_public_id`. -/
def event_public_id (db_id : Nat) : String := "evt_" ++ toString db_id

/-- `schemas.ReservationOut`, as built by the handlers (the enum's `.value`
string is represented by the enum itself; `createdAt` is not modelled). -/
structure ReservationOut where
  id : String
  status : ReservationStatus
  date : String
  time : String
  partySize : Int
  customer : ReservationCustomer
  notes : Option String
deriving DecidableEq

/-- Render a stored reservation row as the API's `ReservationOut`. -/
def toReservationOut (r : Reservation) : ReservationOut :=
{ id := reservation_public_id r.id
  status := r.status
  date := r.date
  time := r.time
  partySize := r.party_size
  customer := { name := r.customer_name, phone := r.customer_phone, email := r.customer_email }
  notes := r.notes }

/-- The `Reservation(...)` row that `create_reservation` constructs and
commits: status PENDING, id drawn from the autoincrement counter. -/
def mkReservation (db : DB) (payload : ReservationCreate) : Reservation :=
{ id := db.nextId
  date := payload.date
  time := payload.time
  party_size := payload.partySize
  customer_name := payload.customer.name
  customer_phone := payload.customer.phone
  customer_email := payload.customer.email
  notes := payload.notes
  status := .PENDING }

/-- `db.add(r); db.commit()` for a freshly built reservation row. -/
def insertReservation (db : DB) (payload : ReservationCreate) : DB :=
{ db with reservations := db.reservations ++ [mkReservation db payload], nextId := db.nextId + 1 }

/-- `POST /reservations` (`create_reservation` in `public_api.py`):
date-then-window-then-capacity validation, then insert a PENDING row.
`cap` is `settings.reservation_slot_capacity`. -/
def create_reservation (db : DB) (cap : Nat) (payload : ReservationCreate) :
    Except ApiError (DB × ReservationOut) :=
match findDay db payload.date with
| none => .error .dateUnavailable
| some day =>
  if !day.«open» then .error .dateUnavailable
  else if !within_window day.windows payload.time then .error .timeOutsideServiceHours
  else if cap ≤ activeCount db payload.date payload.time then .error .slotFull
  else .ok (insertReservation db payload, toReservationOut (mkReservation db payload))

/-- The pair of `strptime` calls `_generate_slots` makes for one window,
followed by its while-loop: the window's slot times in minutes.  `none`
models `strptime` raising on a malformed stored window. -/
def windowSlots (w : ServiceWindow) : Option (List Nat) := do
let s ← hhmmToMinutes w.start
let e ← hhmmToMinutes w.«end»
some (slotsFromWindow s e 30)

/-- The accumulation across windows in `_generate_slots`: the concatenated
`slots` list (as `HH:MM` strings, via `strftime`) before
`sorted(set(slots))` is applied. -/
def collectSlots : List ServiceWindow → Option (List String)
| [] => some []
| w :: ws => do
  let here ← windowSlots w
  let rest ← collectSlots ws
  some (here.map minutesToHHMM ++ rest)

/-- `_generate_slots(windows)` at the fixed default step of 30 minutes:
per-window slot emission, merged and passed through `sorted(set(...))`. -/
def generate_slots (windows : List ServiceWindow) : Option (List String) :=
(collectSlots windows).map pySortedDedup

/-- `schemas.AvailabilitySlot`. -/
structure AvailabilitySlot where
  time : String
  available : Bool
  reason : Option String
deriving DecidableEq

/-- `schemas.AvailabilityResponse` (the constant `timezone` field is not
modelled). -/
structure AvailabilityResponse where
  date : String
  partySize : Int
  slots : List AvailabilitySlot
deriving DecidableEq

/-- Tag one candidate slot time: `available = count < capacity`, reason
`"FULL"` exactly when unavailable. -/
def tagSlot (db : DB) (cap : Nat) (date t : String) : AvailabilitySlot :=
let count := activeCount db date t
let available := decide (count < cap)
{ time := t, available := available, reason := if available then none else some "FULL" }

/-- `GET /availability` (`get_availability` in `public_api.py`).  A missing
or closed day yields a successful empty-slot response; a malformed stored
window would make `strptime` raise inside `_generate_slots`
(`internalError`). -/
def get_availability (db : DB) (cap : Nat) (date : String) (partySize : Int) :
    Except ApiError AvailabilityResponse :=
match findDay db date with
| none => .ok { date := date, partySize := partySize, slots := [] }
| some day =>
  if !day.«open» then .ok { date := date, partySize := partySize, slots := [] }
  else
    match generate_slots day.windows with
    | none => .error .internalError
    | some slot_times =>
      .ok { date := date, partySize := partySize
            slots := slot_times.map (tagSlot db cap date) }

/-- Python `int(s)` on an ASCII string, digits part: `digit+ ('_' digit+)*`
(an underscore must sit between two digits). -/
def pyDigitsCore : List Char → Bool
| [] => false
| [c] => c.isDigit
| c :: '_' :: rest => c.isDigit && pyDigitsCore rest
| c :: rest => c.isDigit && pyDigitsCore rest

/-- Numeric value of a digit string, ignoring grouping underscores. -/
def digitsVal (cs : List Char) : Nat :=
cs.foldl (fun acc c => if c = '_' then acc else acc * 10 + digitVal c) 0

/-- Python `int(s)` for an ASCII string: optional surrounding whitespace,
optional sign, then grouped digits; `none` models `ValueError`. -/
def pyIntParseChars (cs0 : List Char) : Option Int :=
let cs := ((cs0.dropWhile Char.isWhitespace).reverse.dropWhile Char.isWhitespace).reverse
match cs with
| '+' :: rest => if pyDigitsCore rest then some (digitsVal rest : Int) else none
| '-' :: rest => if pyDigitsCore rest then some (-(digitsVal rest : Int)) else none
| rest => if pyDigitsCore rest then some (digitsVal rest : Int) else none

/-- Python `int(s)` on a string. -/
def pyIntParse (s : String) : Option Int := pyIntParseChars s.data

/-- `pre` is a prefix of the character list. -/
def chListHasPre : List Char → List Char → Bool
| [], _ => true
| _ :: _, [] => false
| a :: as, b :: bs => decide (a = b) && chListHasPre as bs

/-- Python `s.startswith(pre)`. -/
def pyStartsWith (s pre : String) : Bool := chListHasPre pre.data s.data

/-- Python `s.split("_", 1)[1]`: everything after the first underscore;
`none` when no underscore occurs (then the `[1]` would raise, which the
handlers rule out by checking the `..._`-prefix first). -/
def afterFirstUnd : List Char → Option (List Char)
| [] => none
| '_' :: rest => some rest
| _ :: rest => afterFirstUnd rest

/-- `int(s.split("_", 1)[1])` as every id-decoding handler performs it. -/
def idNum (s : String) : Option Int :=
match afterFirstUnd s.data with
| none => none
| some rest => pyIntParseChars rest

/-- `select(Reservation).where(Reservation.id == db_id)` with
`scalar_one_or_none()`. -/
def findReservation (db : DB) (db_id : Int) : Option Reservation :=
db.reservations.find? (fun r => decide ((r.id : Int) = db_id))

/-- `GET /reservations/{id}` (`get_reservation` in `public_api.py`).
The prefix check guards `resv_`; the `int(...)` on the suffix is NOT
wrapped in `try/except`, so a non-numeric suffix raises an uncaught
`ValueError` (`internalError`). -/
def get_reservation (db : DB) (reservation_id : String) : Except ApiError ReservationOut :=
if !pyStartsWith reservation_id "resv_" then .error .notFound
else
  match idNum reservation_id with
  | none => .error .internalError
  | some db_id =>
    match findReservation db db_id with
    | none => .error .notFound
    | some r => .ok (toReservationOut r)

/-- Set the found row's status to CANCELLED (`r.status = CANCELLED;
db.add(r); db.commit()`), identified by primary key. -/
def setCancelled (db : DB) (db_id : Nat) : DB :=
{ db with reservations :=
    db.reservations.map (fun r => if r.id = db_id then { r with status := .CANCELLED } else r) }

/-- `POST /reservations/{id}/cancel` (`cancel_reservation` in
`public_api.py`).  Like `get_reservation`, the suffix `int(...)` is not
guarded, so a non-numeric suffix raises (`internalError`); a reservation
already CANCELLED or REJECTED is a 409 conflict. -/
def cancel_reservation (db : DB) (reservation_id : String) :
    Except ApiError (DB × ReservationOut) :=
if !pyStartsWith reservation_id "resv_" then .error .notFound
else
  match idNum reservation_id with
  | none => .error .internalError
  | some db_id =>
    match findReservation db db_id with
    | none => .error .notFound
    | some r =>
      if decide (r.status = .CANCELLED) || decide (r.status = .REJECTED) then
        .error .cannotBeCancelled
      else
        .ok (setCancelled db r.id, toReservationOut { r with status := .CANCELLED })

/-- `select(Event).where(Event.id == db_id, Event.is_published == True)`
with `scalar_one_or_none()`. -/
def findPublishedEvent (db : DB) (db_id : Int) : Option Event :=
db.events.find? (fun e => decide ((e.id : Int) = db_id) && e.is_published)

/-- `schemas.EventPublicDetail`, restricted to the modelled columns. -/
structure EventOut where
  id : String
  title : String
  isPublished : Bool
deriving DecidableEq

/-- `GET /events/{id}` (`get_event` in `public_api.py`).  Here the suffix
`int(...)` IS wrapped in `try/except ValueError`, so both a wrong prefix
and a non-numeric suffix produce the same 404. -/
def get_event (db : DB) (event_id : String) : Except ApiError EventOut :=
if !pyStartsWith event_id "evt_" then .error .notFound
else
  match idNum event_id with
  | none => .error .notFound
  | some db_id =>
    match findPublishedEvent db db_id with
    | none => .error .notFound
    | some e => .ok { id := event_public_id e.id, title := e.title, isPublished := e.is_published }

/-- The regex `^\d{4}-\d{2}-\d{2}$` on `schemas.ReservationCreate.date`. -/
def datePatternOk (s : String) : Bool :=
match s.data with
| [y1, y2, y3, y4, '-', m1, m2, '-', d1, d2] =>
  y1.isDigit && y2.isDigit && y3.isDigit && y4.isDigit &&
  m1.isDigit && m2.isDigit && d1.isDigit && d2.isDigit
| _ => false

/-- The regex `^\d{2}:\d{2}$` on `schemas.ReservationCreate.time`. -/
def timePatternOk (s : String) : Bool :=
match s.data with
| [h1, h2, ':', m1, m2] => h1.isDigit && h2.isDigit && m1.isDigit && m2.isDigit
| _ => false

/-- The pydantic field constraints of `schemas.ReservationCreate`: date and
time patterns, `partySize` with `ge=1, le=50`. -/
def reservationCreateValid (p : ReservationCreate) : Bool :=
datePatternOk p.date && timePatternOk p.time &&
decide (1 ≤ p.partySize) && decide (p.partySize ≤ 50)

/-- The full `POST /reservations` request path: FastAPI validates the body
against `schemas.ReservationCreate` before the handler runs; an invalid
body is rejected with a 422 validation error and the handler never
executes. -/
def reservations_endpoint (db : DB) (cap : Nat) (payload : ReservationCreate) :
    Except ApiError (DB × ReservationOut) :=
if reservationCreateValid payload then create_reservation db cap payload
else .error .validationError

/-- Progress of one in-flight `POST /reservations` request in the
interleaving model: it still has to run its validation‑and‑count read, it
has passed the read and still has to commit its insert, or it has
finished rejected/inserted. -/
inductive ReqPhase
| toCheck
| toInsert
| rejected
| inserted
deriving DecidableEq

/-- Shared store plus the phase of each concurrent request. -/
structure ConcState where
  db : DB
  phases : List ReqPhase
deriving DecidableEq

/-- The read phase of `create_reservation` as one atomic store access: the
day lookup, window test and `(date, time)` count against the current
committed state, deciding admission.  Mirrors the handler's checks
verbatim. -/
def admissionCheck (db : DB) (cap : Nat) (payload : ReservationCreate) : Bool :=
match findDay db payload.date with
| none => false
| some day =>
  day.«open» && within_window day.windows payload.time &&
  decide (activeCount db payload.date payload.time < cap)

/-- One scheduler step: run the next pending store access of request `i`.
The source separates the count `SELECT` from the `INSERT ... COMMIT` with
no lock, `FOR UPDATE`, serializable isolation or unique constraint between
them, so the model lets other requests' commits land between a request's
read and its write (read-committed visibility). -/
def concStep (cap : Nat) (payload : ReservationCreate) (s : ConcState) (i : Nat) : ConcState :=
match s.phases[i]? with
| some .toCheck =>
  { s with phases := s.phases.set i (if admissionCheck s.db cap payload then .toInsert else .rejected) }
| some .toInsert =>
  { db := insertReservation s.db payload, phases := s.phases.set i .inserted }
| _ => s

/-- Run a whole interleaving (a list of request indices, each occurrence
executing that request's next store access). -/
def concRun (cap : Nat) (payload : ReservationCreate) (s : ConcState) (sched : List Nat) :
    ConcState :=
sched.foldl (concStep cap payload) s

/-- How many of the concurrent requests ended up admitted (committed an
insert). -/
def admittedCount (s : ConcState) : Nat :=
(s.phases.filter (fun p => decide (p = .inserted))).length

/-! ## Concrete fixtures used by the witnesses below -/

/-- An open day with the single window 19:00–21:00. -/
def dayFx : ScheduleDay :=
{ date := "2025-06-01", «open» := true, note := none, windows := [⟨"19:00", "21:00"⟩] }

/-- A closed day. -/
def dayClosedFx : ScheduleDay :=
{ date := "2025-06-02", «open» := false, note := some "closed", windows := [⟨"19:00", "21:00"⟩] }

/-- A store with one open day, one closed day and no reservations. -/
def dbC1 : DB := { days := [dayFx, dayClosedFx], reservations := [], events := [], nextId := 1 }

/-- A booking request for 19:17 — inside the 19:00–21:00 window but not on
the 30-minute slot grid. -/
def payC1 : ReservationCreate :=
{ date := "2025-06-01", time := "19:17", partySize := 2
  customer := { name := "Ana", phone := none, email := none }, notes := none }

/-- Two active reservations at 19:30 on the open day. -/
def resFx1 : Reservation :=
{ id := 1, date := "2025-06-01", time := "19:30", party_size := 2, customer_name := "A"
  customer_phone := none, customer_email := none, notes := none, status := .PENDING }

/-- Second active reservation at 19:30 (CONFIRMED). -/
def resFx2 : Reservation :=
{ id := 2, date := "2025-06-01", time := "19:30", party_size := 3, customer_name := "B"
  customer_phone := none, customer_email := none, notes := none, status := .CONFIRMED }

/-- Store for the availability witness: 19:30 holds two active
reservations. -/
def dbC2 : DB :=
{ days := [dayFx, dayClosedFx], reservations := [resFx1, resFx2], events := [], nextId := 3 }

/-- Store for the cancellation witness: one PENDING reservation, id 1. -/
def dbC6 : DB := { days := [dayFx], reservations := [resFx1], events := [], nextId := 2 }

/-- Booking request for 19:00 used by the concurrency scenario. -/
def payC3 : ReservationCreate :=
{ date := "2025-06-01", time := "19:00", partySize := 2
  customer := { name := "Ana", phone := none, email := none }, notes := none }

/-- Six concurrent requests, none having run yet, over a store with
capacity headroom 1 and zero bookings. -/
def concInit : ConcState :=
{ db := { days := [dayFx], reservations := [], events := [], nextId := 1 }
  phases := [.toCheck, .toCheck, .toCheck, .toCheck, .toCheck, .toCheck] }

/-- The interleaving in which all six requests run their count query
before any of them commits its insert. -/
def racySched : List Nat := [0, 1, 2, 3, 4, 5, 0, 1, 2, 3, 4, 5]

/-- The availability response for `dbC2` at capacity 2: 19:30 is full,
the other slots are free. -/
def respC9 : AvailabilityResponse :=
{ date := "2025-06-01", partySize := 2
  slots := [⟨"19:00", true, none⟩, ⟨"19:30", false, some "FULL"⟩,
            ⟨"20:00", true, none⟩, ⟨"20:30", true, none⟩] }

/-- An empty store. -/
def dbEmptyFx : DB := { days := [], reservations := [], events := [], nextId := 1 }

/-- A request body satisfying every `ReservationCreate` field constraint. -/
def payC10ok : ReservationCreate :=
{ date := "2025-06-01", time := "19:00", partySize := 2
  customer := { name := "Ana", phone := none, email := none }, notes := none }

/-- A request body whose party size 51 exceeds the `le=50` bound but whose
date and time match their patterns. -/
def payC10big : ReservationCreate :=
{ date := "2025-06-01", time := "19:00", partySize := 51
  customer := { name := "Ana", phone := none, email := none }, notes := none }

/-! ## Properties of the slot loop -/

theorem slotsLoop_nil (fuel current stop step : Nat) (h : stop ≤ current) :
    slotsLoop fuel current stop step = [] := by
cases fuel with
| zero => rfl
| succ n => rw [slotsLoop, if_neg (Nat.not_lt.mpr h)]

theorem slotsLoop_mem (fuel : Nat) :
    ∀ current stop step t : Nat, t ∈ slotsLoop fuel current stop step →
      current ≤ t ∧ t < stop := by
induction fuel with
| zero => intro current stop step t ht; cases ht
| succ n ih =>
  intro current stop step t ht
  rw [slotsLoop] at ht
  by_cases h : current < stop
  · rw [if_pos h] at ht
    rcases List.mem_cons.mp ht with h1 | h1
    · omega
    · have := ih (current + step) stop step t h1
      omega
  · rw [if_neg h] at ht
    cases ht

/-- The recursion step of the ceiling division `⌈d / s⌉ = (d + s - 1) / s`. -/
theorem ceil_div_rec (d s : Nat) (hs : 0 < s) (hd : 0 < d) :
    (d + s - 1) / s = ((d - s) + s - 1) / s + 1 := by
rcases le_or_lt s d with h | h
· have e : d + s - 1 = ((d - s) + s - 1) + s := by omega
  rw [e, Nat.add_div_right _ hs]
· have e0 : d - s = 0 := by omega
  have e1 : d + s - 1 = (d - 1) + s := by omega
  rw [e0, e1, Nat.add_div_right _ hs, Nat.div_eq_of_lt (by omega),
    Nat.div_eq_of_lt (by omega)]

theorem slotsLoop_length (fuel : Nat) :
    ∀ current stop step : Nat, 0 < step → stop - current ≤ fuel →
      (slotsLoop fuel current stop step).length = (stop - current + step - 1) / step := by
induction fuel with
| zero =>
  intro current stop step hs hfuel
  rw [slotsLoop]
  have e : stop - current = 0 := by omega
  rw [e, List.length_nil, Nat.div_eq_of_lt (by omega)]
| succ n ih =>
  intro current stop step hs hfuel
  rw [slotsLoop]
  by_cases h : current < stop
  · rw [if_pos h, List.length_cons, ih (current + step) stop step hs (by omega)]
    have e : stop - (current + step) = (stop - current) - step := by omega
    rw [e, ceil_div_rec (stop - current) step hs (by omega)]
  · rw [if_neg h, List.length_nil]
    have e : stop - current = 0 := by omega
    rw [e, Nat.div_eq_of_lt (by omega)]

theorem slotsFromWindow_length (start stop step : Nat) (hs : 0 < step) :
    (slotsFromWindow start stop step).length = (stop - start + step - 1) / step := by
rw [slotsFromWindow, if_neg (by omega)]
exact slotsLoop_length _ _ _ _ hs le_rfl

theorem slotsFromWindow_mem (start stop step t : Nat)
    (ht : t ∈ slotsFromWindow start stop step) : start ≤ t ∧ t < stop := by
rw [slotsFromWindow] at ht
by_cases h0 : step = 0
· rw [if_pos h0] at ht; cases ht
· rw [if_neg h0] at ht; exact slotsLoop_mem _ _ _ _ _ ht

theorem slotsFromWindow_single (start stop step : Nat) (h1 : start < stop)
    (h2 : stop - start < step) : slotsFromWindow start stop step = [start] := by
have e : stop - start = (stop - start - 1) + 1 := by omega
rw [slotsFromWindow, if_neg (by omega), e, slotsLoop, if_pos h1,
  slotsLoop_nil _ _ _ _ (by omega)]

theorem slotsFromWindow_empty (start stop step : Nat) (h : stop ≤ start) :
    slotsFromWindow start stop step = [] := by
by_cases h0 : step = 0
· rw [slotsFromWindow, if_pos h0]
· rw [slotsFromWindow, if_neg h0]
  exact slotsLoop_nil _ _ _ _ h

/-! ## The lexicographic string order is a strict linear order -/

theorem chListLt_irrefl (l : List Char) : chListLt l l = false := by
induction l with
| nil => rfl
| cons a as ih => rw [chListLt, if_neg (lt_irrefl a), if_neg (lt_irrefl a)]; exact ih

theorem chListLt_trans : ∀ {a b c : List Char},
    chListLt a b = true → chListLt b c = true → chListLt a c = true := by
intro a
induction a with
| nil =>
  intro b c h1 h2
  cases b with
  | nil => cases h1
  | cons y bs =>
    cases c with
    | nil => cases h2
    | cons z cs => rfl
| cons x as ih =>
  intro b c h1 h2
  cases b with
  | nil => cases h1
  | cons y bs =>
    cases c with
    | nil => cases h2
    | cons z cs =>
      rw [chListLt] at h1 h2 ⊢
      rcases lt_trichotomy x y with hxy | hxy | hxy
      · rcases lt_trichotomy y z with hyz | hyz | hyz
        · rw [if_pos (lt_trans hxy hyz)]
        · rw [if_pos (hyz ▸ hxy)]
        · rw [if_neg (not_lt.mpr (le_of_lt hyz)), if_pos hyz] at h2; cases h2
      · subst hxy
        rw [if_neg (lt_irrefl x), if_neg (lt_irrefl x)] at h1
        rcases lt_trichotomy x z with hyz | hyz | hyz
        · rw [if_pos hyz]
        · subst hyz
          rw [if_neg (lt_irrefl x), if_neg (lt_irrefl x)] at h2 ⊢
          exact ih h1 h2
        · rw [if_neg (not_lt.mpr (le_of_lt hyz)), if_pos hyz] at h2; cases h2
      · rw [if_neg (not_lt.mpr (le_of_lt hxy)), if_pos hxy] at h1; cases h1

theorem chListLt_total : ∀ {a b : List Char}, a ≠ b →
    chListLt a b = true ∨ chListLt b a = true := by
intro a
induction a with
| nil =>
  intro b hne
  cases b with
  | nil => exact absurd rfl hne
  | cons y bs => exact Or.inl rfl
| cons x as ih =>
  intro b hne
  cases b with
  | nil => exact Or.inr rfl
  | cons y bs =>
    rcases lt_trichotomy x y with hxy | hxy | hxy
    · exact Or.inl (by rw [chListLt, if_pos hxy])
    · subst hxy
      have hne' : as ≠ bs := fun h => hne (by rw [h])
      rcases ih hne' with h | h
      · exact Or.inl (by rw [chListLt, if_neg (lt_irrefl x), if_neg (lt_irrefl x)]; exact h)
      · exact Or.inr (by rw [chListLt, if_neg (lt_irrefl x), if_neg (lt_irrefl x)]; exact h)
    · exact Or.inr (by rw [chListLt, if_pos hxy])

theorem pyStrLt_irrefl (a : String) : pyStrLt a a = false := chListLt_irrefl a.data

theorem pyStrLt_trans {a b c : String} (h1 : pyStrLt a b = true) (h2 : pyStrLt b c = true) :
    pyStrLt a c = true := chListLt_trans h1 h2

theorem pyStrLt_total {a b : String} (h : a ≠ b) :
    pyStrLt a b = true ∨ pyStrLt b a = true :=
chListLt_total (fun hd => h (String.ext hd))

theorem pyStrLt_ne {a b : String} (h : pyStrLt a b = true) : a ≠ b := by
intro he; subst he; rw [pyStrLt_irrefl a] at h; cases h

/-! ## `sorted(set(...))` really sorts and deduplicates -/

theorem mem_insertDedup {y x : String} : ∀ {l : List String},
    y ∈ insertDedup x l ↔ y = x ∨ y ∈ l := by
intro l
induction l with
| nil => simp [insertDedup]
| cons z zs ih =>
  rw [insertDedup]
  by_cases h1 : x = z
  · subst h1
    rw [if_pos rfl]
    simp only [List.mem_cons]
    tauto
  · rw [if_neg h1]
    by_cases h2 : pyStrLt x z = true
    · rw [if_pos h2]
      simp only [List.mem_cons]
    · rw [if_neg h2]
      simp only [List.mem_cons, ih]
      tauto

theorem sorted_insertDedup {x : String} : ∀ {l : List String},
    List.Pairwise (fun a b => pyStrLt a b = true) l →
    List.Pairwise (fun a b => pyStrLt a b = true) (insertDedup x l) := by
intro l
induction l with
| nil => intro _; simp [insertDedup]
| cons z zs ih =>
  intro h
  rw [insertDedup]
  rcases List.pairwise_cons.mp h with ⟨hz, hzs⟩
  by_cases h1 : x = z
  · rw [if_pos h1]; exact h
  · rw [if_neg h1]
    by_cases h2 : pyStrLt x z = true
    · rw [if_pos h2]
      refine List.pairwise_cons.mpr ⟨?_, h⟩
      intro y hy
      rcases List.mem_cons.mp hy with hy | hy
      · exact hy ▸ h2
      · exact pyStrLt_trans h2 (hz y hy)
    · rw [if_neg h2]
      refine List.pairwise_cons.mpr ⟨?_, ih hzs⟩
      intro y hy
      rcases mem_insertDedup.mp hy with hy | hy
      · subst hy
        rcases pyStrLt_total h1 with h | h
        · exact absurd h h2
        · exact h
      · exact hz y hy

theorem pySortedDedup_sorted (l : List String) :
    List.Pairwise (fun a b => pyStrLt a b = true) (pySortedDedup l) := by
induction l with
| nil => exact List.Pairwise.nil
| cons x xs ih => exact sorted_insertDedup ih

theorem mem_pySortedDedup {y : String} : ∀ {l : List String},
    y ∈ pySortedDedup l ↔ y ∈ l := by
intro l
induction l with
| nil => simp [pySortedDedup]
| cons x xs ih =>
  show y ∈ insertDedup x (pySortedDedup xs) ↔ _
  rw [mem_insertDedup]
  simp only [List.mem_cons, ih]

theorem pySortedDedup_nodup (l : List String) : (pySortedDedup l).Nodup :=
(pySortedDedup_sorted l).imp (fun h => pyStrLt_ne h)

/-! ## Claim C4 -/

/-- C4: for every service window and step `s > 0`, `_generate_slots`'s
per-window loop emits exactly `ceil((end-start)/s)` slots (in ℕ,
`(end-start+s-1)/s`), each emitted slot `t` satisfies `start ≤ t < end`, a
window whose span is smaller than the step yields exactly one slot (its
start time), and a window with `start ≥ end` yields no slots. -/
theorem c4_slot_generator_per_window (start stop s : Nat) (hs : 0 < s) :
    (slotsFromWindow start stop s).length = (stop - start + s - 1) / s ∧
    (∀ t ∈ slotsFromWindow start stop s, start ≤ t ∧ t < stop) ∧
    (start < stop → stop - start < s → slotsFromWindow start stop s = [start]) ∧
    (stop ≤ start → slotsFromWindow start stop s = []) :=
⟨slotsFromWindow_length start stop s hs,
 fun t ht => slotsFromWindow_mem start stop s t ht,
 fun h1 h2 => slotsFromWindow_single start stop s h1 h2,
 fun h => slotsFromWindow_empty start stop s h⟩

/-- Witness for C4 at the window 19:00–21:00 (minutes 1140–1260) with the
default step 30. -/
theorem c4_slot_generator_per_window_witness : 0 < 30 ∧
    ((slotsFromWindow 1140 1260 30).length = (1260 - 1140 + 30 - 1) / 30 ∧
     (∀ t ∈ slotsFromWindow 1140 1260 30, 1140 ≤ t ∧ t < 1260) ∧
     (1140 < 1260 → 1260 - 1140 < 30 → slotsFromWindow 1140 1260 30 = [1140]) ∧
     (1260 ≤ 1140 → slotsFromWindow 1140 1260 30 = [])) :=
⟨by decide, c4_slot_generator_per_window 1140 1260 30 (by decide)⟩

/-! ## Claim C8 -/

theorem collectSlots_mem {t : String} : ∀ {windows : List ServiceWindow} {all : List String},
    collectSlots windows = some all →
    (t ∈ all ↔ ∃ w ∈ windows, ∃ sl, windowSlots w = some sl ∧ t ∈ sl.map minutesToHHMM) := by
intro windows
induction windows with
| nil =>
  intro all h
  simp only [collectSlots, Option.some.injEq] at h
  subst h
  simp
| cons w ws ih =>
  intro all h
  cases hw : windowSlots w with
  | none => rw [collectSlots, hw] at h; cases h
  | some here =>
    cases hr : collectSlots ws with
    | none => rw [collectSlots, hw, hr] at h; cases h
    | some rest =>
      rw [collectSlots, hw, hr] at h
      have h2 : here.map minutesToHHMM ++ rest = all :=
        Option.some.inj h
      subst h2
      rw [List.mem_append]
      constructor
      · intro hmem
        rcases hmem with hmem | hmem
        · exact ⟨w, List.mem_cons_self w ws, here, hw, hmem⟩
        · rcases (ih hr).mp hmem with ⟨w', hw', sl, hsl, hin⟩
          exact ⟨w', List.mem_cons_of_mem w hw', sl, hsl, hin⟩
      · intro hmem
        rcases hmem with ⟨w', hw', sl, hsl, hin⟩
        rcases List.mem_cons.mp hw' with he | he
        · subst he
          rw [hw] at hsl
          cases hsl
          exact Or.inl hin
        · exact Or.inr ((ih hr).mpr ⟨w', he, sl, hsl, hin⟩)

/-- C8: for any collection of service windows, `_generate_slots`'s output
is the deduplicated union of the per-window slot emissions, in strictly
ascending lexicographic order with no duplicates; zero windows yield an
empty result. -/
theorem c8_generate_slots_sorted_dedup_union (windows : List ServiceWindow)
    (all : List String) (h : collectSlots windows = some all) :
    ∃ out, generate_slots windows = some out ∧
      List.Pairwise (fun a b => pyStrLt a b = true) out ∧
      out.Nodup ∧
      (∀ t, t ∈ out ↔ ∃ w ∈ windows, ∃ sl, windowSlots w = some sl ∧ t ∈ sl.map minutesToHHMM) ∧
      (windows = [] → out = []) := by
refine ⟨pySortedDedup all, ?_, pySortedDedup_sorted all, pySortedDedup_nodup all, ?_, ?_⟩
· rw [generate_slots, h]; rfl
· intro t
  rw [mem_pySortedDedup]
  exact collectSlots_mem h
· intro he
  subst he
  simp only [collectSlots, Option.some.injEq] at h
  subst h
  rfl

/-- Witness for C8 at two overlapping windows 19:00–21:00 and 20:00–22:00,
which share the slot starts 20:00 and 20:30. -/
theorem c8_generate_slots_sorted_dedup_union_witness :
    collectSlots ([⟨"19:00", "21:00"⟩, ⟨"20:00", "22:00"⟩] : List ServiceWindow) =
      some ["19:00", "19:30", "20:00", "20:30", "20:00", "20:30", "21:00", "21:30"] ∧
    (∃ out, generate_slots ([⟨"19:00", "21:00"⟩, ⟨"20:00", "22:00"⟩] : List ServiceWindow) = some out ∧
      List.Pairwise (fun a b => pyStrLt a b = true) out ∧
      out.Nodup ∧
      (∀ t, t ∈ out ↔ ∃ w ∈ ([⟨"19:00", "21:00"⟩, ⟨"20:00", "22:00"⟩] : List ServiceWindow),
        ∃ sl, windowSlots w = some sl ∧ t ∈ sl.map minutesToHHMM) ∧
      (([⟨"19:00", "21:00"⟩, ⟨"20:00", "22:00"⟩] : List ServiceWindow) = [] → out = [])) :=
⟨by decide,
 c8_generate_slots_sorted_dedup_union
   ([⟨"19:00", "21:00"⟩, ⟨"20:00", "22:00"⟩] : List ServiceWindow)
   ["19:00", "19:30", "20:00", "20:30", "20:00", "20:30", "21:00", "21:30"]
   (by decide)⟩

/-! ## Claim C1 -/

theorem within_window_iff (ws : List ServiceWindow) (t : String) :
    within_window ws t = true ↔
      ∃ w ∈ ws, pyStrLe w.start t = true ∧ pyStrLt t w.«end» = true := by
rw [within_window, List.any_eq_true]
simp only [Bool.and_eq_true]

/-- C1: reservation creation validates in the fixed order
date-then-window-then-capacity with the first failing check winning: a
missing or closed ScheduleDay fails with the date-unavailable reason
(HTTP 400); otherwise a requested time satisfying
`window.start <= time < window.end` for no service window fails with the
time-outside-service-hours reason (HTTP 400); otherwise an active count at
the exact `(date, time)` at or above capacity fails with the slot-full
reason (HTTP 409); otherwise a PENDING reservation carrying the request's
date, time and party size is appended and returned.  The window test puts
no slot-grid condition on the time. -/
theorem c1_create_reservation_validation (db : DB) (cap : Nat) (payload : ReservationCreate) :
    ((findDay db payload.date = none ∨
        ∃ day, findDay db payload.date = some day ∧ day.«open» = false) →
      create_reservation db cap payload = .error .dateUnavailable ∧
      statusCode .dateUnavailable = 400) ∧
    (∀ day, findDay db payload.date = some day → day.«open» = true →
      (¬ ∃ w ∈ day.windows, pyStrLe w.start payload.time = true ∧
          pyStrLt payload.time w.«end» = true) →
      create_reservation db cap payload = .error .timeOutsideServiceHours ∧
      statusCode .timeOutsideServiceHours = 400) ∧
    (∀ day, findDay db payload.date = some day → day.«open» = true →
      (∃ w ∈ day.windows, pyStrLe w.start payload.time = true ∧
          pyStrLt payload.time w.«end» = true) →
      cap ≤ activeCount db payload.date payload.time →
      create_reservation db cap payload = .error .slotFull ∧
      statusCode .slotFull = 409) ∧
    (∀ day, findDay db payload.date = some day → day.«open» = true →
      (∃ w ∈ day.windows, pyStrLe w.start payload.time = true ∧
          pyStrLt payload.time w.«end» = true) →
      activeCount db payload.date payload.time < cap →
      ∃ r : Reservation,
        create_reservation db cap payload =
          .ok ({ db with reservations := db.reservations ++ [r], nextId := db.nextId + 1 },
            toReservationOut r) ∧
        r.status = .PENDING ∧ r.date = payload.date ∧ r.time = payload.time ∧
        r.party_size = payload.partySize) := by
refine ⟨?_, ?_, ?_, ?_⟩
· rintro (h | ⟨day, hd, ho⟩)
  · rw [create_reservation, h]
    exact ⟨rfl, rfl⟩
  · simp only [create_reservation, hd]
    rw [ho]
    exact ⟨rfl, rfl⟩
· intro day hd ho hnw
  have hw : within_window day.windows payload.time = false :=
    Bool.eq_false_iff.mpr (fun ht => hnw ((within_window_iff _ _).mp ht))
  simp only [create_reservation, hd]
  rw [ho, hw]
  exact ⟨rfl, rfl⟩
· intro day hd ho hex hc
  have hw : within_window day.windows payload.time = true := (within_window_iff _ _).mpr hex
  simp only [create_reservation, hd]
  rw [ho, hw, if_pos hc]
  exact ⟨rfl, rfl⟩
· intro day hd ho hex hc
  have hw : within_window day.windows payload.time = true := (within_window_iff _ _).mpr hex
  refine ⟨mkReservation db payload, ?_, rfl, rfl, rfl, rfl⟩
  simp only [create_reservation, hd]
  rw [ho, hw, if_neg (Nat.not_le.mpr hc)]
  rfl

/-- Witness for C1: on an open day with window 19:00–21:00, capacity 2 and
no bookings, the request for 19:17 — inside the window but not a
30-minute slot boundary — is admitted as PENDING. -/
theorem c1_create_reservation_validation_witness :
    findDay dbC1 payC1.date = some dayFx ∧ dayFx.«open» = true ∧
    (∃ w ∈ dayFx.windows, pyStrLe w.start payC1.time = true ∧
      pyStrLt payC1.time w.«end» = true) ∧
    activeCount dbC1 payC1.date payC1.time < 2 ∧
    (∃ r : Reservation,
      create_reservation dbC1 2 payC1 =
        .ok ({ dbC1 with reservations := dbC1.reservations ++ [r], nextId := dbC1.nextId + 1 },
          toReservationOut r) ∧
      r.status = .PENDING ∧ r.date = payC1.date ∧ r.time = payC1.time ∧
      r.party_size = payC1.partySize) :=
⟨by decide, by decide, ⟨⟨"19:00", "21:00"⟩, by decide, by decide, by decide⟩, by decide,
 (c1_create_reservation_validation dbC1 2 payC1).2.2.2 dayFx (by decide) (by decide)
   ⟨⟨"19:00", "21:00"⟩, by decide, by decide, by decide⟩ (by decide)⟩

/-! ## Claim C5 -/

/-- C5: for a date with no ScheduleDay, or whose ScheduleDay is closed, the
availability query returns a successful response echoing the requested
date and party size with an empty slot list — never an error. -/
theorem c5_availability_closed_or_missing_day (db : DB) (cap : Nat) (date : String)
    (partySize : Int)
    (h : findDay db date = none ∨ ∃ day, findDay db date = some day ∧ day.«open» = false) :
    get_availability db cap date partySize =
      .ok { date := date, partySize := partySize, slots := [] } := by
rcases h with h | ⟨day, hd, ho⟩
· rw [get_availability, h]
· simp only [get_availability, hd]
  rw [ho]
  rfl

/-- Witness for C5 at a missing date and at a closed date. -/
theorem c5_availability_closed_or_missing_day_witness :
    ((findDay dbC1 "2025-07-04" = none ∨
        ∃ day, findDay dbC1 "2025-07-04" = some day ∧ day.«open» = false) ∧
      get_availability dbC1 10 "2025-07-04" 4 =
        .ok { date := "2025-07-04", partySize := 4, slots := [] }) ∧
    ((findDay dbC1 "2025-06-02" = none ∨
        ∃ day, findDay dbC1 "2025-06-02" = some day ∧ day.«open» = false) ∧
      get_availability dbC1 10 "2025-06-02" 4 =
        .ok { date := "2025-06-02", partySize := 4, slots := [] }) :=
⟨⟨Or.inl (by decide), c5_availability_closed_or_missing_day dbC1 10 "2025-07-04" 4
    (Or.inl (by decide))⟩,
 ⟨Or.inr ⟨dayClosedFx, by decide, by decide⟩,
  c5_availability_closed_or_missing_day dbC1 10 "2025-06-02" 4
    (Or.inr ⟨dayClosedFx, by decide, by decide⟩)⟩⟩

/-! ## Claim C2 -/

theorem activeCount_append_inert (db : DB) (r : Reservation) (date t : String)
    (h : isActive r.status = false) :
    activeCount { db with reservations := db.reservations ++ [r] } date t =
      activeCount db date t := by
simp [activeCount, List.filter_append, h]

theorem tagSlot_spec (db : DB) (cap : Nat) (date t : String) :
    (tagSlot db cap date t).time = t ∧
    ((tagSlot db cap date t).available = true ↔ activeCount db date t < cap) ∧
    ((tagSlot db cap date t).available = true → (tagSlot db cap date t).reason = none) ∧
    ((tagSlot db cap date t).available = false → (tagSlot db cap date t).reason = some "FULL") := by
refine ⟨rfl, ?_, ?_, ?_⟩ <;> by_cases hc : activeCount db date t < cap <;>
  simp [tagSlot, hc]

theorem get_availability_reservations_congr (db : DB) (rs' : List Reservation)
    (cap : Nat) (date : String) (ps : Int)
    (hcount : ∀ t, activeCount { db with reservations := rs' } date t = activeCount db date t) :
    get_availability { db with reservations := rs' } cap date ps =
      get_availability db cap date ps := by
have hfd : findDay { db with reservations := rs' } date = findDay db date := rfl
rw [get_availability, get_availability, hfd]
cases hd : findDay db date with
| none => rfl
| some day =>
  cases hob : day.«open» with
  | false =>
    simp only [hob]
    rfl
  | true =>
    simp only [hob]
    cases hg : generate_slots day.windows with
    | none => simp only [hg]
    | some ts =>
      simp only [hg]
      have emap : List.map (tagSlot { db with reservations := rs' } cap date) ts =
          List.map (tagSlot db cap date) ts :=
        List.map_congr_left (fun t _ => by simp [tagSlot, hcount t])
      rw [emap]

/-- C2: for a date with an existing open ScheduleDay, the availability
result is exactly the Slot Generator's output over that day's windows,
each slot available iff the count of PENDING/CONFIRMED reservations at the
exact `(date, time)` is strictly below capacity, an unavailable slot
carrying the fixed reason `"FULL"` and an available one no reason; with
exactly capacity-many active reservations a slot is unavailable, with
capacity-minus-one it is available, and appending a CANCELLED or REJECTED
reservation never changes the result. -/
theorem c2_availability_engine (db : DB) (cap : Nat) (date : String) (ps : Int)
    (day : ScheduleDay) (ts : List String)
    (hd : findDay db date = some day) (ho : day.«open» = true)
    (hg : generate_slots day.windows = some ts) :
    ∃ slots, get_availability db cap date ps =
        .ok { date := date, partySize := ps, slots := slots } ∧
      slots.map AvailabilitySlot.time = ts ∧
      (∀ s ∈ slots, (s.available = true ↔ activeCount db date s.time < cap) ∧
        (s.available = true → s.reason = none) ∧
        (s.available = false → s.reason = some "FULL")) ∧
      (∀ s ∈ slots, activeCount db date s.time = cap →
        s.available = false ∧ s.reason = some "FULL") ∧
      (∀ s ∈ slots, 0 < cap → activeCount db date s.time = cap - 1 →
        s.available = true ∧ s.reason = none) ∧
      (∀ r : Reservation, r.status = .CANCELLED ∨ r.status = .REJECTED →
        get_availability { db with reservations := db.reservations ++ [r] } cap date ps =
          get_availability db cap date ps) := by
refine ⟨ts.map (tagSlot db cap date), ?_, ?_, ?_, ?_, ?_, ?_⟩
· simp only [get_availability, hd]
  rw [ho, hg]
  rfl
· rw [List.map_map]
  have : ∀ t ∈ ts, (AvailabilitySlot.time ∘ tagSlot db cap date) t = t := fun t _ => rfl
  rw [List.map_congr_left this, List.map_id']
· intro s hs
  rcases List.mem_map.mp hs with ⟨t, _, rfl⟩
  rcases tagSlot_spec db cap date t with ⟨e1, e2, e3, e4⟩
  rw [e1]
  exact ⟨e2, e3, e4⟩
· intro s hs hcnt
  rcases List.mem_map.mp hs with ⟨t, _, rfl⟩
  rcases tagSlot_spec db cap date t with ⟨e1, e2, e3, e4⟩
  rw [e1] at hcnt
  have hav : (tagSlot db cap date t).available = false := by
    rcases Bool.eq_false_or_eq_true (tagSlot db cap date t).available with h | h
    · exact absurd (e2.mp h) (by omega)
    · exact h
  exact ⟨hav, e4 hav⟩
· intro s hs hcap hcnt
  rcases List.mem_map.mp hs with ⟨t, _, rfl⟩
  rcases tagSlot_spec db cap date t with ⟨e1, e2, e3, e4⟩
  rw [e1] at hcnt
  have hav : (tagSlot db cap date t).available = true := e2.mpr (by omega)
  exact ⟨hav, e3 hav⟩
· intro r hr
  have hinert : isActive r.status = false := by
    rcases hr with h | h <;> simp [isActive, h]
  exact get_availability_reservations_congr db (db.reservations ++ [r]) cap date ps
    (fun t => activeCount_append_inert db r date t hinert)

/-- Witness for C2 on a store whose 19:30 slot holds two active
reservations, at capacity 2. -/
theorem c2_availability_engine_witness :
    findDay dbC2 "2025-06-01" = some dayFx ∧ dayFx.«open» = true ∧
    generate_slots dayFx.windows = some ["19:00", "19:30", "20:00", "20:30"] ∧
    (∃ slots, get_availability dbC2 2 "2025-06-01" 2 =
        .ok { date := "2025-06-01", partySize := 2, slots := slots } ∧
      slots.map AvailabilitySlot.time = ["19:00", "19:30", "20:00", "20:30"] ∧
      (∀ s ∈ slots, (s.available = true ↔ activeCount dbC2 "2025-06-01" s.time < 2) ∧
        (s.available = true → s.reason = none) ∧
        (s.available = false → s.reason = some "FULL")) ∧
      (∀ s ∈ slots, activeCount dbC2 "2025-06-01" s.time = 2 →
        s.available = false ∧ s.reason = some "FULL") ∧
      (∀ s ∈ slots, 0 < 2 → activeCount dbC2 "2025-06-01" s.time = 2 - 1 →
        s.available = true ∧ s.reason = none) ∧
      (∀ r : Reservation, r.status = .CANCELLED ∨ r.status = .REJECTED →
        get_availability { dbC2 with reservations := dbC2.reservations ++ [r] } 2 "2025-06-01" 2 =
          get_availability dbC2 2 "2025-06-01" 2)) :=
⟨by decide, by decide, by decide,
 c2_availability_engine dbC2 2 "2025-06-01" 2 dayFx
   ["19:00", "19:30", "20:00", "20:30"] (by decide) (by decide) (by decide)⟩

/-! ## Claim C9 -/

/-- C9: availability is noninterferent in the party size — two queries for
the same date against the same store differing only in party size return
identical slot lists (and identical failure outcomes); the party size is
merely echoed in the response. -/
theorem c9_partysize_noninterference (db : DB) (cap : Nat) (date : String) (ps1 ps2 : Int) :
    (get_availability db cap date ps1).map AvailabilityResponse.slots =
      (get_availability db cap date ps2).map AvailabilityResponse.slots ∧
    (∀ resp, get_availability db cap date ps1 = .ok resp →
      resp.date = date ∧ resp.partySize = ps1) := by
constructor
· rw [get_availability, get_availability]
  cases hd : findDay db date with
  | none => rfl
  | some day =>
    cases hob : day.«open» with
    | false =>
      simp only [hob]
      rfl
    | true =>
      simp only [hob]
      cases hg : generate_slots day.windows with
      | none =>
        simp only [hg]
        rfl
      | some ts =>
        simp only [hg]
        rfl
· intro resp h
  cases hd : findDay db date with
  | none =>
    rw [get_availability, hd] at h
    injection h with h2
    rw [← h2]
    exact ⟨rfl, rfl⟩
  | some day =>
    simp only [get_availability, hd] at h
    cases hob : day.«open» with
    | false =>
      rw [hob] at h
      injection h with h2
      rw [← h2]
      exact ⟨rfl, rfl⟩
    | true =>
      rw [hob] at h
      cases hg : generate_slots day.windows with
      | none =>
        rw [hg] at h
        cases h
      | some ts =>
        rw [hg] at h
        injection h with h2
        rw [← h2]
        exact ⟨rfl, rfl⟩

/-- Witness for C9: party sizes 2 and 7 over the same store give the same
slots; the response echoes date and party size. -/
theorem c9_partysize_noninterference_witness :
    ((get_availability dbC2 2 "2025-06-01" 2).map AvailabilityResponse.slots =
      (get_availability dbC2 2 "2025-06-01" 7).map AvailabilityResponse.slots) ∧
    (get_availability dbC2 2 "2025-06-01" 2 = .ok respC9) ∧
    respC9.date = "2025-06-01" ∧ respC9.partySize = 2 :=
⟨(c9_partysize_noninterference dbC2 2 "2025-06-01" 2 7).1, rfl,
 (c9_partysize_noninterference dbC2 2 "2025-06-01" 2 7).2 respC9 rfl⟩

/-! ## Claim C6 -/

theorem map_setCancelled_id (rid0 : Nat) :
    ∀ l : List Reservation, (∀ y ∈ l, y.id ≠ rid0) →
    l.map (fun x => if x.id = rid0 then { x with status := ReservationStatus.CANCELLED } else x)
      = l := by
intro l
induction l with
| nil => intro _; rfl
| cons x xs ih =>
  intro h
  rw [List.map_cons, if_neg (h x (List.mem_cons_self x xs)),
    ih (fun y hy => h y (List.mem_cons_of_mem x hy))]

theorem count_cancel_dec (rid0 : Nat) (d t : String) :
    ∀ l : List Reservation, ∀ r : Reservation, r ∈ l → r.id = rid0 →
    (l.map Reservation.id).Nodup → r.date = d → r.time = t → isActive r.status = true →
    ((l.map (fun x => if x.id = rid0 then { x with status := ReservationStatus.CANCELLED } else x)).filter
        (fun x => decide (x.date = d) && decide (x.time = t) && isActive x.status)).length + 1 =
      (l.filter (fun x => decide (x.date = d) && decide (x.time = t) && isActive x.status)).length := by
intro l
induction l with
| nil => intro r hr; cases hr
| cons x xs ih =>
  intro r hr hrid hnodup hrd hrt hract
  have hnodup' := hnodup
  rw [List.map_cons, List.nodup_cons] at hnodup'
  rcases List.mem_cons.mp hr with he | he
  · subst he
    have hxs : ∀ y ∈ xs, y.id ≠ rid0 := by
      intro y hy hyid
      exact hnodup'.1 (by
        rw [← hrid] at hyid
        exact hyid ▸ List.mem_map_of_mem Reservation.id hy)
    rw [List.map_cons, if_pos hrid, map_setCancelled_id rid0 xs hxs,
      List.filter_cons, List.filter_cons]
    have hpt : (decide (r.date = d) && decide (r.time = t) && isActive r.status) = true := by
      simp [hrd, hrt, hract]
    have hpf : (decide (r.date = d) && decide (r.time = t) &&
        isActive ReservationStatus.CANCELLED) = false := by
      simp [isActive]
    rw [hpt, hpf]
    simp
  · have hxid : x.id ≠ rid0 := by
      intro hxid
      refine hnodup'.1 ?_
      rw [hxid, ← hrid]
      exact List.mem_map_of_mem Reservation.id he
    rw [List.map_cons, if_neg hxid, List.filter_cons, List.filter_cons]
    have ihx := ih r he hrid hnodup'.2 hrd hrt hract
    by_cases hp : (decide (x.date = d) && decide (x.time = t) && isActive x.status) = true
    · rw [hp]
      simp only [if_true, List.length_cons]
      omega
    · rw [Bool.eq_false_iff.mpr hp]
      simpa using ihx

theorem count_cancel_other (rid0 : Nat) (d t : String) :
    ∀ l : List Reservation,
    (∀ y ∈ l, y.id = rid0 → ¬(y.date = d ∧ y.time = t)) →
    ((l.map (fun x => if x.id = rid0 then { x with status := ReservationStatus.CANCELLED } else x)).filter
        (fun x => decide (x.date = d) && decide (x.time = t) && isActive x.status)).length =
      (l.filter (fun x => decide (x.date = d) && decide (x.time = t) && isActive x.status)).length := by
intro l
induction l with
| nil => intro _; rfl
| cons x xs ih =>
  intro h
  have hxs : ∀ y ∈ xs, y.id = rid0 → ¬(y.date = d ∧ y.time = t) :=
    fun y hy => h y (List.mem_cons_of_mem x hy)
  rw [List.map_cons, List.filter_cons, List.filter_cons]
  by_cases hxid : x.id = rid0
  · have hdt : ¬(x.date = d ∧ x.time = t) := h x (List.mem_cons_self x xs) hxid
    have hpf : (decide (x.date = d) && decide (x.time = t) && isActive x.status) = false := by
      rcases Bool.eq_false_or_eq_true (decide (x.date = d)) with hd1 | hd1
      · have hxd : x.date = d := of_decide_eq_true hd1
        have ht1 : decide (x.time = t) = false :=
          decide_eq_false (fun ht => hdt ⟨hxd, ht⟩)
        simp [ht1]
      · simp [hd1]
    have hpf2 : (decide ((if x.id = rid0 then { x with status := ReservationStatus.CANCELLED } else x).date = d) &&
        decide ((if x.id = rid0 then { x with status := ReservationStatus.CANCELLED } else x).time = t) &&
        isActive (if x.id = rid0 then { x with status := ReservationStatus.CANCELLED } else x).status) = false := by
      rw [if_pos hxid]
      rcases Bool.eq_false_or_eq_true (decide (x.date = d)) with hd1 | hd1
      · have hxd : x.date = d := of_decide_eq_true hd1
        have ht1 : decide (x.time = t) = false :=
          decide_eq_false (fun ht => hdt ⟨hxd, ht⟩)
        simp [ht1]
      · simp [hd1]
    rw [if_pos hxid] at hpf2 ⊢
    rw [hpf, hpf2]
    exact ih hxs
  · rw [if_neg hxid]
    by_cases hp : (decide (x.date = d) && decide (x.time = t) && isActive x.status) = true
    · rw [hp]
      simp only [if_true, List.length_cons]
      rw [ih hxs]
    · rw [Bool.eq_false_iff.mpr hp]
      simpa using ih hxs

/-- C6: cancellation sets a reservation's status to CANCELLED exactly when
its current status is PENDING or CONFIRMED; a reservation already
CANCELLED or REJECTED is rejected with a 409 conflict, not a silent
success; and a cancelled reservation stops counting toward the
`(date, time)` capacity used by availability and admission, leaving every
other slot's count unchanged. -/
theorem c6_cancel_reservation (db : DB) (rid : String) (n : Int) (r : Reservation)
    (hpre : pyStartsWith rid "resv_" = true)
    (hnum : idNum rid = some n)
    (hfind : findReservation db n = some r)
    (hids : (db.reservations.map Reservation.id).Nodup) :
    (r.status = .CANCELLED ∨ r.status = .REJECTED →
      cancel_reservation db rid = .error .cannotBeCancelled ∧
      statusCode .cannotBeCancelled = 409) ∧
    (r.status = .PENDING ∨ r.status = .CONFIRMED →
      cancel_reservation db rid =
        .ok (setCancelled db r.id, toReservationOut { r with status := .CANCELLED }) ∧
      activeCount (setCancelled db r.id) r.date r.time + 1 = activeCount db r.date r.time ∧
      (∀ d t, ¬(d = r.date ∧ t = r.time) →
        activeCount (setCancelled db r.id) d t = activeCount db d t)) := by
constructor
· intro hst
  refine ⟨?_, rfl⟩
  simp only [cancel_reservation, hpre, hnum, hfind]
  have hcond : (decide (r.status = ReservationStatus.CANCELLED) ||
      decide (r.status = ReservationStatus.REJECTED)) = true := by
    rcases hst with h | h <;> simp [h]
  rw [hcond]
  rfl
· intro hst
  have hact : isActive r.status = true := by
    rcases hst with h | h <;> simp [isActive, h]
  have hcond : (decide (r.status = ReservationStatus.CANCELLED) ||
      decide (r.status = ReservationStatus.REJECTED)) = false := by
    rcases hst with h | h <;> simp [h]
  refine ⟨?_, ?_, ?_⟩
  · simp only [cancel_reservation, hpre, hnum, hfind]
    rw [hcond]
    rfl
  · exact count_cancel_dec r.id r.date r.time db.reservations r
      (List.mem_of_find?_eq_some hfind) rfl hids rfl rfl hact
  · intro d t hne
    refine count_cancel_other r.id d t db.reservations ?_
    intro y hy hyid hydt
    have hyr : y = r :=
      List.inj_on_of_nodup_map hids hy (List.mem_of_find?_eq_some hfind) (by rw [hyid])
    subst hyr
    exact hne ⟨hydt.1.symm, hydt.2.symm⟩

/-- Witness for C6: cancelling the PENDING reservation `resv_1` succeeds,
transitions it to CANCELLED and decrements the active count at its
`(date, time)` from 1 to 0. -/
theorem c6_cancel_reservation_witness :
    pyStartsWith "resv_1" "resv_" = true ∧
    idNum "resv_1" = some 1 ∧
    findReservation dbC6 1 = some resFx1 ∧
    (dbC6.reservations.map Reservation.id).Nodup ∧
    (cancel_reservation dbC6 "resv_1" =
        .ok (setCancelled dbC6 resFx1.id, toReservationOut { resFx1 with status := .CANCELLED }) ∧
      activeCount (setCancelled dbC6 resFx1.id) resFx1.date resFx1.time + 1 =
        activeCount dbC6 resFx1.date resFx1.time ∧
      (∀ d t, ¬(d = resFx1.date ∧ t = resFx1.time) →
        activeCount (setCancelled dbC6 resFx1.id) d t = activeCount dbC6 d t)) :=
⟨by decide, by decide, by decide, by decide,
 (c6_cancel_reservation dbC6 "resv_1" 1 resFx1 (by decide) (by decide) (by decide)
    (by decide)).2 (Or.inl rfl)⟩

/-! ## Claim C7

The spec says a wrong prefix or a non-numeric suffix is always a 404.
`get_event` (and every admin endpoint) wraps the suffix `int(...)` in
`try/except ValueError`, but `get_reservation` and `cancel_reservation` do
not: there a non-numeric suffix raises an uncaught `ValueError`, which
surfaces as a 500 internal error, not a 404. -/

/-- C7 (counterexample / code-bug evaluation): on the reservation
endpoints the identifier `resv_abc` (correct prefix, non-numeric suffix)
produces an uncaught-exception 500, distinguishable from the 404 the
claim requires, while the event endpoint's `evt_abc` and a wrong-prefix
reservation identifier produce the claimed 404. -/
theorem c7_id_decoding_500_on_reservations :
    get_reservation dbEmptyFx "resv_abc" = .error .internalError ∧
    cancel_reservation dbEmptyFx "resv_abc" = .error .internalError ∧
    get_event dbEmptyFx "evt_abc" = .error .notFound ∧
    get_reservation dbEmptyFx "evt_1" = .error .notFound ∧
    get_reservation dbEmptyFx "resv_1" = .error .notFound ∧
    statusCode .internalError = 500 ∧ statusCode .notFound = 404 :=
⟨rfl, rfl, rfl, rfl, rfl, rfl, rfl⟩

/-! ## Claim C3

The source runs the capacity count `SELECT` and the `INSERT ... COMMIT`
as two separate store accesses with no lock, serializable isolation or
unique constraint between them, so an interleaving in which every request
reads the count before any request commits admits them all. -/

/-- C3 (counterexample / code-bug evaluation): with capacity 1 and six
simultaneous requests for the same `(date, time)` over a store with zero
bookings, the interleaving that schedules all six count reads before any
insert admits all six requests — not the claimed exactly-capacity-many —
and leaves six PENDING rows at the slot. -/
theorem c3_concurrent_overadmission :
    admittedCount (concRun 1 payC3 concInit racySched) = 6 ∧
    activeCount (concRun 1 payC3 concInit racySched).db payC3.date payC3.time = 6 ∧
    ¬ admittedCount (concRun 1 payC3 concInit racySched) = 1 := by
refine ⟨by decide, by decide, by decide⟩

/-! ## Claim C10 -/

theorem datePatternOk_iff (s : String) :
    datePatternOk s = true ↔ ∃ y1 y2 y3 y4 m1 m2 d1 d2 : Char,
      s.data = [y1, y2, y3, y4, '-', m1, m2, '-', d1, d2] ∧
      y1.isDigit = true ∧ y2.isDigit = true ∧ y3.isDigit = true ∧ y4.isDigit = true ∧
      m1.isDigit = true ∧ m2.isDigit = true ∧ d1.isDigit = true ∧ d2.isDigit = true := by
constructor
· intro h
  unfold datePatternOk at h
  split at h
  · rename_i y1 y2 y3 y4 m1 m2 d1 d2 heq
    refine ⟨y1, y2, y3, y4, m1, m2, d1, d2, heq, ?_⟩
    simpa [Bool.and_eq_true, and_assoc] using h
  · cases h
· rintro ⟨y1, y2, y3, y4, m1, m2, d1, d2, heq, h1, h2, h3, h4, h5, h6, h7, h8⟩
  unfold datePatternOk
  rw [heq]
  simp [h1, h2, h3, h4, h5, h6, h7, h8]

theorem timePatternOk_iff (s : String) :
    timePatternOk s = true ↔ ∃ h1 h2 m1 m2 : Char,
      s.data = [h1, h2, ':', m1, m2] ∧
      h1.isDigit = true ∧ h2.isDigit = true ∧ m1.isDigit = true ∧ m2.isDigit = true := by
constructor
· intro h
  unfold timePatternOk at h
  split at h
  · rename_i c1 c2 c3 c4 heq
    refine ⟨c1, c2, c3, c4, heq, ?_⟩
    simpa [Bool.and_eq_true, and_assoc] using h
  · cases h
· rintro ⟨c1, c2, c3, c4, heq, e1, e2, e3, e4⟩
  unfold timePatternOk
  rw [heq]
  simp [e1, e2, e3, e4]

/-- C10: a reservation-creation request is rejected with a validation
error before the handler's admission logic runs unless its party size is
between 1 and 50 inclusive (an upper bound of 50, not merely positivity),
its date matches `^\d{4}-\d{2}-\d{2}$` (four digits, dash, two digits,
dash, two digits) and its time matches `^\d{2}:\d{2}$` (two digits,
colon, two digits); when the body is valid the handler runs unmodified. -/
theorem c10_request_body_validation (db : DB) (cap : Nat) (p : ReservationCreate) :
    (reservationCreateValid p = true ↔
      (datePatternOk p.date = true ∧ timePatternOk p.time = true ∧
       1 ≤ p.partySize ∧ p.partySize ≤ 50)) ∧
    (datePatternOk p.date = true ↔ ∃ y1 y2 y3 y4 m1 m2 d1 d2 : Char,
      p.date.data = [y1, y2, y3, y4, '-', m1, m2, '-', d1, d2] ∧
      y1.isDigit = true ∧ y2.isDigit = true ∧ y3.isDigit = true ∧ y4.isDigit = true ∧
      m1.isDigit = true ∧ m2.isDigit = true ∧ d1.isDigit = true ∧ d2.isDigit = true) ∧
    (timePatternOk p.time = true ↔ ∃ c1 c2 c3 c4 : Char,
      p.time.data = [c1, c2, ':', c3, c4] ∧
      c1.isDigit = true ∧ c2.isDigit = true ∧ c3.isDigit = true ∧ c4.isDigit = true) ∧
    (reservationCreateValid p = false →
      reservations_endpoint db cap p = .error .validationError ∧
      statusCode .validationError = 422) ∧
    (reservationCreateValid p = true →
      reservations_endpoint db cap p = create_reservation db cap p) ∧
    (50 < p.partySize → reservations_endpoint db cap p = .error .validationError) := by
refine ⟨?_, datePatternOk_iff p.date, timePatternOk_iff p.time, ?_, ?_, ?_⟩
· simp [reservationCreateValid, Bool.and_eq_true, decide_eq_true_iff, and_assoc]
· intro h
  rw [reservations_endpoint, h]
  exact ⟨rfl, rfl⟩
· intro h
  rw [reservations_endpoint, h]
  rfl
· intro h51
  cases hb : reservationCreateValid p with
  | false =>
    rw [reservations_endpoint, hb]
    rfl
  | true =>
    exfalso
    simp only [reservationCreateValid, Bool.and_eq_true, decide_eq_true_iff] at hb
    omega

/-- Witness for C10: party size 51 with well-formed date and time is
rejected by validation; the same body with party size 2 reaches the
handler. -/
theorem c10_request_body_validation_witness :
    (reservationCreateValid payC10big = false ∧
      reservations_endpoint dbEmptyFx 10 payC10big = .error .validationError) ∧
    (reservationCreateValid payC10ok = true ∧
      reservations_endpoint dbEmptyFx 10 payC10ok = create_reservation dbEmptyFx 10 payC10ok) ∧
    50 < payC10big.partySize :=
⟨⟨by decide, ((c10_request_body_validation dbEmptyFx 10 payC10big).2.2.2.1 (by decide)).1⟩,
 ⟨by decide, (c10_request_body_validation dbEmptyFx 10 payC10ok).2.2.2.2.1 (by decide)⟩,
 by decide⟩

end Ariala
